import Mathlib

/-!
Verification of the authify repository's core against its specification.

The Go source is shallowly embedded: Go `map[string]T` becomes an association
list with replace-on-insert semantics (`StrMap`), Go `error` sentinels become
the `GoError` inductive, JWT tokens become structured `Token` values (header
algorithm, signing key, claim map), and clock reads become an explicit `now`
parameter in Unix seconds.  The bcrypt collaborator is modelled by an
injective tagging function, keeping exactly the property the code relies on:
`CompareHashAndPassword (GenerateFromPassword p) p` succeeds and comparison
against a different password fails.
-/

set_option autoImplicit false

namespace Authify

/-! ## Go map model -/

/-- A Go `map[string]α`, modelled as an association list.  Go maps are
unordered; order in this list is never observable through `mapLookup`. -/
abbrev StrMap (α : Type) := List (String × α)

/-- Go map read `m[k]` with its comma-ok result. -/
def mapLookup {α : Type} : StrMap α → String → Option α
  | [], _ => none
  | (k₀, v) :: rest, k => if k₀ = k then some v else mapLookup rest k

/-- Go map assignment `m[k] = v`: replaces any existing binding of `k`. -/
def mapInsert {α : Type} (m : StrMap α) (k : String) (v : α) : StrMap α :=
  (k, v) :: m.filter (fun p => p.1 != k)

/-! ## Errors (src/errors.go and the ad-hoc `fmt.Errorf` errors) -/

/-- The Go error sentinels reachable from the embedded operations, plus the
two `fmt.Errorf` errors of the relational store. -/
inductive GoError where
  | tokenExpired
  | unexpectedSigningMethod
  | invalidToken
  | claimsInvalid
  | missingUsername
  | missingRole
  | refreshTokenExpired
  | userExists
  | userNotFound
  | invalidPassword
  | missingRequiredField (name : String)
  | passwordColumnNotConfigured
  deriving DecidableEq, Repr

/-- Outcome of running a Go function that may also panic (for the unchecked
type assertions in `RefreshToken` and the relational `GetUserInfo`). -/
inductive RunResult (α : Type) where
  | ok (a : α)
  | err (e : GoError)
  | panicked
  deriving DecidableEq, Repr

deriving instance DecidableEq for Except

/-! ## Schema config (src/stores/config.go) -/

/-- `ColumnConfig`; `colType` embeds the yaml `type` field and `dflt` the yaml
`default` field. -/
structure ColumnConfig where
  colType    : String
  primaryKey : Bool
  unique     : Bool
  required   : Bool
  dflt       : String
  hidden     : Bool
  jwtClaim   : String
  deriving DecidableEq, Repr

/-- `TableConfig`; `columns` is a Go map keyed by column name. -/
structure TableConfig where
  name       : String
  autoCreate : Bool
  columns    : StrMap ColumnConfig
  deriving DecidableEq, Repr

/-! ## bcrypt collaborator model -/

/-- Model of `bcrypt.GenerateFromPassword` (an external collaborator): an
injective tagging of the password.  Salting is immaterial to the embedded
properties. -/
def bcryptGenerateFromPassword (password : String) : String :=
  "bcrypt-hash:" ++ password

/-- Model of `bcrypt.CompareHashAndPassword`: succeeds exactly when the hash
was generated from the given password. -/
def bcryptCompareHashAndPassword (hash password : String) : Bool :=
  hash == bcryptGenerateFromPassword password

/-- The stores hash the value exactly when the column is named `password`. -/
def hashIfPassword (name val : String) : String :=
  if name = "password" then bcryptGenerateFromPassword val else val

/-! ## In-memory store (src/stores/config.go, `InMemoryUserStore`) -/

structure InMemoryUserStore where
  users    : StrMap (StrMap String)
  tableCfg : TableConfig
  deriving DecidableEq, Repr

/-- The column loop of `InMemoryUserStore.CreateUser`: for each schema column,
take the supplied value (hashed for the password column), else the default
(hashed likewise), else skip; a required column with no default and no
supplied value aborts with `ErrInvalidPassword` (the sentinel the Go code
returns on that path). -/
def buildRecord : StrMap ColumnConfig → StrMap String → StrMap String →
    Except GoError (StrMap String)
  | [], _, acc => .ok acc
  | (name, cfg) :: rest, data, acc =>
    match mapLookup data name with
    | some v => buildRecord rest data (mapInsert acc name (hashIfPassword name v))
    | none =>
      if cfg.required = true ∧ cfg.dflt = "" then .error .invalidPassword
      else if cfg.dflt ≠ "" then
        buildRecord rest data (mapInsert acc name (hashIfPassword name cfg.dflt))
      else buildRecord rest data acc

/-- `InMemoryUserStore.CreateUser`.  The store is returned alongside the
error/unit result; the Go code mutates `m.users` only on the success path. -/
def InMemoryUserStore.CreateUser (st : InMemoryUserStore) (data : StrMap String) :
    Except GoError Unit × InMemoryUserStore :=
  match mapLookup data "username" with
  | none => (.error .userNotFound, st)
  | some username =>
    match mapLookup st.users username with
    | some _ => (.error .userExists, st)
    | none =>
      match buildRecord st.tableCfg.columns data [] with
      | .error e => (.error e, st)
      | .ok user => (.ok (), { st with users := mapInsert st.users username user })

/-- The result loop of `InMemoryUserStore.GetUserInfo`: every non-hidden
schema column whose value is present in the record. -/
def buildResult : StrMap ColumnConfig → StrMap String → StrMap String → StrMap String
  | [], _, acc => acc
  | (name, cfg) :: rest, user, acc =>
    if cfg.hidden = true then buildResult rest user acc
    else
      match mapLookup user name with
      | some v => buildResult rest user (mapInsert acc name v)
      | none => buildResult rest user acc

/-- `InMemoryUserStore.GetUserInfo`. -/
def InMemoryUserStore.GetUserInfo (st : InMemoryUserStore) (username password : String) :
    Except GoError (StrMap String) :=
  match mapLookup st.users username with
  | none => .error .userNotFound
  | some user =>
    match mapLookup user "password" with
    | none => .error .invalidPassword
    | some hashed =>
      if bcryptCompareHashAndPassword hashed password = true then
        .ok (buildResult st.tableCfg.columns user [])
      else .error .invalidPassword

/-! ## Relational store (src/stores/config.go, `AuthifyDB`) -/

/-- `AuthifyDB`; `rows` models the contents of the backing users table as a
map from the `username` column to the full row (column name to SQL value,
`none` meaning SQL NULL). -/
structure AuthifyDB where
  tableCfg : TableConfig
  rows     : StrMap (StrMap String)
  deriving DecidableEq, Repr

/-- The column loop of `AuthifyDB.CreateUser`: computes the (column, value)
list handed to the INSERT statement, hashing the password column; a required
column with no default that is absent from the input aborts with the
`missing required field` error.  The INSERT execution itself is the backing
store's side. -/
def dbInsertRow : StrMap ColumnConfig → StrMap String → StrMap String →
    Except GoError (StrMap String)
  | [], _, acc => .ok acc
  | (name, cfg) :: rest, data, acc =>
    match mapLookup data name with
    | none =>
      if cfg.required = true ∧ cfg.dflt = "" then .error (.missingRequiredField name)
      else dbInsertRow rest data acc
    | some v => dbInsertRow rest data (acc ++ [(name, hashIfPassword name v)])

/-- `AuthifyDB.CreateUser` up to the INSERT it issues. -/
def AuthifyDB.CreateUser (db : AuthifyDB) (data : StrMap String) :
    Except GoError (StrMap String) :=
  dbInsertRow db.tableCfg.columns data []

/-- `fmt.Sprintf "%v"` on a scanned SQL value (`nil` for NULL). -/
def goFmtV : Option String → String
  | some s => s
  | none => "<nil>"

/-- `AuthifyDB.GetUserInfo`.  Note: the `cfg.Hidden` filter present in the
in-memory variant is commented out in this function's Go source, both for
`selectCols` and for the result map, so every schema column is selected and
returned.  The `values[pwIdx].(string)` assertion panics on a NULL password
cell. -/
def AuthifyDB.GetUserInfo (db : AuthifyDB) (username password : String) :
    RunResult (StrMap String) :=
  let selectCols := db.tableCfg.columns.map Prod.fst
  match mapLookup db.rows username with
  | none => .err .userNotFound
  | some row =>
    if selectCols.contains "password" then
      match mapLookup row "password" with
      | none => .panicked
      | some hashed =>
        if bcryptCompareHashAndPassword hashed password = true then
          .ok (selectCols.foldl (fun acc name => mapInsert acc name (goFmtV (mapLookup row name))) [])
        else .err .invalidPassword
    else .err .passwordColumnNotConfigured

/-! ## JWT model (src/internal/grpc/server.go, golang-jwt/jwt v5 collaborator) -/

/-- Signing algorithms declared in a token header; `SigningMethodHMAC` covers
the HS family. -/
inductive Alg where
  | hs256
  | hs384
  | hs512
  | rs256
  | es256
  deriving DecidableEq, Repr

def Alg.isHMAC : Alg → Bool
  | .hs256 => true
  | .hs384 => true
  | .hs512 => true
  | _ => false

/-- A claim value as it appears after the JSON round-trip: a string, or a
number (`float64` in Go; integral seconds suffice here). -/
inductive GoVal where
  | str (s : String)
  | num (n : Int)
  deriving DecidableEq, Repr

abbrev Claims := StrMap GoVal

/-- A signed JWT, abstracted to its header algorithm, the key whose MAC it
carries, and its claim set. -/
structure Token where
  alg    : Alg
  key    : String
  claims : Claims
  deriving DecidableEq, Repr

/-- Claim-validation failures collected by the jwt v5 validator. -/
inductive ValErr where
  | invalidType
  | expired
  | notValidYet
  deriving DecidableEq, Repr

/-- jwt v5 `verifyExpiresAt` with required=false: an absent `exp` is fine, a
non-numeric `exp` is a type error, and the token is expired once `now` is no
longer before `exp`. -/
def validateExp (now : Int) (c : Claims) : List ValErr :=
  match mapLookup c "exp" with
  | some (.num e) => if now ≥ e then [.expired] else []
  | some (.str _) => [.invalidType]
  | none => []

/-- jwt v5 `verifyNotBefore` with required=false. -/
def validateNbf (now : Int) (c : Claims) : List ValErr :=
  match mapLookup c "nbf" with
  | some (.num n) => if now < n then [.notValidYet] else []
  | some (.str _) => [.invalidType]
  | none => []

/-- jwt v5 default claim validation (`iat` is only checked under an option
the code does not enable). -/
def validateClaims (now : Int) (c : Claims) : List ValErr :=
  validateExp now c ++ validateNbf now c

/-- Failure modes of `jwt.Parse` as invoked by `VerifyToken`. -/
inductive ParseError where
  | keyfuncFailed (e : GoError)
  | signatureInvalid
  | invalidClaims (errs : List ValErr)
  deriving DecidableEq, Repr

/-- `errors.Is(err, jwt.ErrTokenExpired)` on a `jwt.Parse` failure. -/
def errorsIsTokenExpired : ParseError → Bool
  | .invalidClaims errs => errs.contains .expired
  | _ => false

/-- `jwt.Parse` with the keyfunc used by `VerifyToken`: the keyfunc rejects
non-HMAC header algorithms, then the signature is checked against the selected
secret, then the standard claims are validated. -/
def jwtParse (secretKey : String) (now : Int) (t : Token) : Except ParseError Claims :=
  if t.alg.isHMAC = false then .error (.keyfuncFailed .unexpectedSigningMethod)
  else if t.key ≠ secretKey then .error .signatureInvalid
  else
    match validateClaims now t.claims with
    | [] => .ok t.claims
    | e :: es => .error (.invalidClaims (e :: es))

/-! ## JWTManager (src/internal/grpc/server.go) -/

/-- `JWTManager` after a successful `Build()`; `tokenDuration` in seconds. -/
structure JWTManager where
  accessTokenSecretKey  : String
  refreshTokenSecretKey : String
  tokenDuration         : Int
  deriving DecidableEq, Repr

def authifyIssuer : String := "authify-issuer"

def secondsPerDay : Int := 86400

/-- The claim-building loop of `GenerateToken`: `claims[k] = v` over the
returned user fields, on top of the `iss`/`exp` literal. -/
def insertClaims (base : Claims) (fields : StrMap String) : Claims :=
  fields.foldl (fun acc kv => mapInsert acc kv.1 (GoVal.str kv.2)) base

/-- `JWTManager.GenerateToken`, with the bound store passed explicitly. -/
def JWTManager.GenerateToken (m : JWTManager) (st : InMemoryUserStore) (now : Int)
    (username password : String) : Except GoError Token :=
  match st.GetUserInfo username password with
  | .error e => .error e
  | .ok userInfo =>
    .ok { alg := .hs256, key := m.accessTokenSecretKey,
          claims := insertClaims
            (mapInsert (mapInsert [] "iss" (.str authifyIssuer))
              "exp" (.num (now + m.tokenDuration)))
            userInfo }

/-- `JWTManager.GenerateRefreshToken` (`AddDate(0,0,3)` and `AddDate(0,0,15)`
as day offsets). -/
def JWTManager.GenerateRefreshToken (m : JWTManager) (now : Int)
    (username ipAddress : String) : Token :=
  { alg := .hs256, key := m.refreshTokenSecretKey,
    claims := [("uName", .str username), ("IpAddr", .str ipAddress),
               ("iat", .num now), ("exp", .num (now + 3 * secondsPerDay)),
               ("aExp", .num (now + 15 * secondsPerDay)), ("valid", .str "True")] }

/-- `JWTManager.VerifyToken`. -/
def JWTManager.VerifyToken (m : JWTManager) (now : Int) (t : Token) (isRefresh : Bool) :
    Except GoError (String × String) :=
  let secretKey := if isRefresh then m.refreshTokenSecretKey else m.accessTokenSecretKey
  match jwtParse secretKey now t with
  | .error e =>
    if errorsIsTokenExpired e = true then .error .tokenExpired else .error .invalidToken
  | .ok claims =>
    let expElapsed : Bool :=
      match mapLookup claims "exp" with
      | some (.num e) => now > e
      | _ => false
    if expElapsed = true then .error .tokenExpired
    else if isRefresh = false then
      match mapLookup claims "username" with
      | some (.str username) =>
        match mapLookup claims "role" with
        | some (.str role) => .ok (username, role)
        | _ => .error .missingRole
      | _ => .error .missingUsername
    else
      match mapLookup claims "valid" with
      | some (.str v) =>
        if v ≠ "True" then .error .invalidToken
        else
          match mapLookup claims "uName" with
          | some (.str username) => .ok (username, "")
          | _ => .error .missingUsername
      | _ => .error .invalidToken

/-- `JWTManager.RefreshToken`.  `ParseUnverified` on a structurally intact
token always yields its claim map; the `claims["username"].(string)` type
assertion on the expired-access recovery path is unchecked and panics when
the claim is absent or not a string, while `role` uses the comma-ok form. -/
def JWTManager.RefreshToken (m : JWTManager) (now : Int)
    (accessToken refreshToken : Token) : RunResult (Token × String) :=
  match m.VerifyToken now refreshToken true with
  | .error e => if e = .tokenExpired then .err .refreshTokenExpired else .err e
  | .ok _ =>
    match m.VerifyToken now accessToken false with
    | .ok (username, role) =>
      .ok ({ alg := .hs256, key := m.accessTokenSecretKey,
             claims := [("username", .str username), ("role", .str role),
                        ("exp", .num (now + m.tokenDuration)),
                        ("refreshed_at", .num (now * 1000000000))] }, username)
    | .error e =>
      if e = .tokenExpired then
        match mapLookup accessToken.claims "username" with
        | some (.str username) =>
          let role : String :=
            match mapLookup accessToken.claims "role" with
            | some (.str r) => r
            | _ => ""
          .ok ({ alg := .hs256, key := m.accessTokenSecretKey,
                 claims := [("username", .str username), ("role", .str role),
                            ("exp", .num (now + m.tokenDuration)),
                            ("refreshed_at", .num (now * 1000000000))] }, username)
        | _ => .panicked
      else .err e

/-! ## Helpers for closed statements -/

/-- Projects the field map out of a store result (empty map on error). -/
def resultFields : Except GoError (StrMap String) → StrMap String
  | .ok m => m
  | .error _ => []

/-- Projects the field map out of a relational store result. -/
def runFields : RunResult (StrMap String) → StrMap String
  | .ok m => m
  | _ => []

/-- Projects the token out of a `GenerateToken` result (dummy token on error). -/
def resultToken : Except GoError Token → Token
  | .ok t => t
  | .error _ => { alg := .hs256, key := "", claims := [] }

/-! ## Fixtures: the spec's §8 example schema and small variants -/

/-- `username` column: text, primary key, required. -/
def exUsernameCol : ColumnConfig := ⟨"text", true, false, true, "", false, ""⟩

/-- `password` column: text, required, hidden. -/
def exPasswordCol : ColumnConfig := ⟨"text", false, false, true, "", true, ""⟩

/-- `role` column: text, default `user`, claim-name `role`. -/
def exRoleCol : ColumnConfig := ⟨"text", false, false, false, "user", false, "role"⟩

def exColumns : StrMap ColumnConfig :=
  [("username", exUsernameCol), ("password", exPasswordCol), ("role", exRoleCol)]

def exTableCfg : TableConfig := ⟨"users", true, exColumns⟩

def exEmptyStore : InMemoryUserStore := ⟨[], exTableCfg⟩

def exData : StrMap String := [("username", "alice"), ("password", "secret1")]

/-- The store after creating alice/secret1. -/
def exStore : InMemoryUserStore := (exEmptyStore.CreateUser exData).2

def exMgr : JWTManager := ⟨"access-secret", "refresh-secret", 900⟩

/-- A refresh token issued at time 0 for alice. -/
def exRefreshTok : Token := exMgr.GenerateRefreshToken 0 "alice" "1.2.3.4"

/-- A token whose header declares RS256, over the access secret. -/
def exRS256Tok : Token :=
  ⟨Alg.rs256, "access-secret",
    [("username", GoVal.str "alice"), ("role", GoVal.str "user"), ("exp", GoVal.num 900)]⟩

/-- A correctly signed access token, expired at any positive time, carrying
no `username` claim. -/
def exExpiredNoUserTok : Token := ⟨Alg.hs256, "access-secret", [("exp", GoVal.num 0)]⟩

/-- A correctly signed access token, expired at any positive time, carrying
alice's claims. -/
def exExpiredAliceTok : Token :=
  ⟨Alg.hs256, "access-secret",
    [("username", GoVal.str "alice"), ("role", GoVal.str "user"), ("exp", GoVal.num 0)]⟩

/-- A required `email` column with no default, for the missing-field claims. -/
def exEmailCol : ColumnConfig := ⟨"text", false, false, true, "", false, ""⟩

def exColumnsEmail : StrMap ColumnConfig :=
  [("username", exUsernameCol), ("password", exPasswordCol), ("email", exEmailCol)]

def exStoreEmail : InMemoryUserStore := ⟨[], ⟨"users", true, exColumnsEmail⟩⟩

/-- A `role` column whose claim-name differs from the column name. -/
def exRoleColCustom : ColumnConfig := ⟨"text", false, false, false, "user", false, "customRole"⟩

def exColumnsCustom : StrMap ColumnConfig :=
  [("username", exUsernameCol), ("password", exPasswordCol), ("role", exRoleColCustom)]

def exStoreCustom : InMemoryUserStore :=
  (InMemoryUserStore.CreateUser ⟨[], ⟨"users", true, exColumnsCustom⟩⟩ exData).2

/-- A schema with no `role` column at all. -/
def exColumnsNoRole : StrMap ColumnConfig :=
  [("username", exUsernameCol), ("password", exPasswordCol)]

def exStoreNoRole : InMemoryUserStore :=
  (InMemoryUserStore.CreateUser ⟨[], ⟨"users", true, exColumnsNoRole⟩⟩ exData).2

/-- A relational store over the example schema with alice's row in the table. -/
def exDB : AuthifyDB :=
  ⟨exTableCfg,
    [("alice",
      [("username", "alice"), ("password", "bcrypt-hash:secret1"), ("role", "user")])]⟩

/-! ## Association-map lemmas -/

theorem mapLookup_filter_ne {α : Type} (m : StrMap α) (k k₁ : String) (h : k₁ ≠ k) :
    mapLookup (m.filter (fun p => p.1 != k)) k₁ = mapLookup m k₁ := by
  induction m with
  | nil => rfl
  | cons p rest ih =>
    rcases p with ⟨k₀, v₀⟩
    by_cases h₀ : k₀ = k
    · subst h₀
      have : k₀ ≠ k₁ := fun hc => h hc.symm
      simp [List.filter_cons, mapLookup, this, ih]
    · simp [List.filter_cons, h₀, mapLookup, ih]

theorem mapLookup_insert {α : Type} (m : StrMap α) (k k₁ : String) (v : α) :
    mapLookup (mapInsert m k v) k₁ = if k₁ = k then some v else mapLookup m k₁ := by
  by_cases h : k₁ = k
  · subst h; simp [mapInsert, mapLookup]
  · have hk : k ≠ k₁ := fun hc => h hc.symm
    simp [mapInsert, mapLookup, hk, h, mapLookup_filter_ne m k k₁ h]

theorem mapLookup_eq_none_of_not_mem {α : Type} (m : StrMap α) (k : String)
    (h : k ∉ m.map Prod.fst) : mapLookup m k = none := by
  induction m with
  | nil => rfl
  | cons p rest ih =>
    simp only [List.map_cons, List.mem_cons] at h
    push_neg at h
    simp [mapLookup, Ne.symm h.1, ih h.2]

/-- Inserting preserves distinctness of keys. -/
theorem nodupKeys_insert {α : Type} (m : StrMap α) (k : String) (v : α)
    (h : (m.map Prod.fst).Nodup) : ((mapInsert m k v).map Prod.fst).Nodup := by
  simp only [mapInsert, List.map_cons, List.nodup_cons]
  constructor
  · intro hmem
    rcases List.mem_map.1 hmem with ⟨p, hp, hfst⟩
    have := List.of_mem_filter hp
    simp only [bne_iff_ne, ne_eq, decide_eq_true_eq] at this
    exact this hfst
  · exact List.Nodup.sublist (List.Sublist.map Prod.fst (List.filter_sublist m)) h

/-! ## Record-builder lemmas (in-memory `CreateUser` loop) -/

/-- Columns absent from the schema never enter the stored record. -/
theorem buildRecord_lookup_of_none :
    ∀ (cols : StrMap ColumnConfig) (data acc r : StrMap String) (c : String),
    mapLookup cols c = none → buildRecord cols data acc = .ok r →
    mapLookup r c = mapLookup acc c := by
  intro cols
  induction cols with
  | nil =>
    intro data acc r c _ h
    cases h
    rfl
  | cons p rest ih =>
    intro data acc r c hc h
    rcases p with ⟨name, cfg⟩
    have hne : name ≠ c := by
      intro hx
      simp [mapLookup, hx] at hc
    have hrest : mapLookup rest c = none := by
      simpa [mapLookup, hne] using hc
    unfold buildRecord at h
    split at h
    · rw [ih data _ r c hrest h, mapLookup_insert, if_neg (Ne.symm hne)]
    · split at h
      · cases h
      · split at h
        · rw [ih data _ r c hrest h, mapLookup_insert, if_neg (Ne.symm hne)]
        · exact ih data _ r c hrest h

/-- What the stored record holds at a schema column: the supplied value
(hashed when the column is the password), else the nonempty default (hashed
likewise), else nothing inherited beyond the accumulator. -/
theorem buildRecord_lookup_of_some :
    ∀ (cols : StrMap ColumnConfig) (data acc r : StrMap String) (c : String)
      (cfg : ColumnConfig),
    (cols.map Prod.fst).Nodup → mapLookup cols c = some cfg →
    buildRecord cols data acc = .ok r →
    mapLookup r c =
      match mapLookup data c with
      | some v => some (hashIfPassword c v)
      | none =>
        if cfg.dflt ≠ "" then some (hashIfPassword c cfg.dflt) else mapLookup acc c := by
  intro cols
  induction cols with
  | nil =>
    intro data acc r c cfg _ hc _
    cases hc
  | cons p rest ih =>
    intro data acc r c cfg hnd hc h
    rcases p with ⟨name, cfg₀⟩
    simp only [List.map_cons, List.nodup_cons] at hnd
    by_cases hcn : name = c
    · subst hcn
      have hcfg : cfg₀ = cfg := by simpa [mapLookup] using hc
      subst hcfg
      have hrest : mapLookup rest name = none :=
        mapLookup_eq_none_of_not_mem rest name hnd.1
      unfold buildRecord at h
      split at h
      next v hv =>
        rw [buildRecord_lookup_of_none rest data _ r name hrest h,
          mapLookup_insert, if_pos rfl]
      next hv =>
        split at h
        · cases h
        · split at h
          next hdflt =>
            rw [buildRecord_lookup_of_none rest data _ r name hrest h,
              mapLookup_insert, if_pos rfl, if_pos hdflt]
          next hdflt =>
            rw [buildRecord_lookup_of_none rest data _ r name hrest h, if_neg hdflt]
    · have hcrest : mapLookup rest c = some cfg := by
        simpa [mapLookup, hcn] using hc
      unfold buildRecord at h
      split at h
      · rw [ih data _ r c cfg hnd.2 hcrest h, mapLookup_insert, if_neg (Ne.symm hcn)]
      · split at h
        · cases h
        · split at h
          · rw [ih data _ r c cfg hnd.2 hcrest h, mapLookup_insert, if_neg (Ne.symm hcn)]
          · exact ih data _ r c cfg hnd.2 hcrest h

/-! ## Result-builder lemmas (in-memory `GetUserInfo` loop) -/

/-- Columns absent from the schema never enter the returned field map. -/
theorem buildResult_lookup_of_none :
    ∀ (cols : StrMap ColumnConfig) (user acc : StrMap String) (c : String),
    mapLookup cols c = none →
    mapLookup (buildResult cols user acc) c = mapLookup acc c := by
  intro cols
  induction cols with
  | nil => intro user acc c _; rfl
  | cons p rest ih =>
    intro user acc c hc
    rcases p with ⟨name, cfg⟩
    have hne : name ≠ c := by
      intro hx
      simp [mapLookup, hx] at hc
    have hrest : mapLookup rest c = none := by
      simpa [mapLookup, hne] using hc
    unfold buildResult
    split
    · exact ih user acc c hrest
    · split
      · rw [ih user _ c hrest, mapLookup_insert, if_neg (Ne.symm hne)]
      · exact ih user acc c hrest

/-- The returned field map at a schema column: nothing when the column is
hidden, otherwise exactly the record's value when present. -/
theorem buildResult_lookup_of_some :
    ∀ (cols : StrMap ColumnConfig) (user acc : StrMap String) (c : String)
      (cfg : ColumnConfig),
    (cols.map Prod.fst).Nodup → mapLookup cols c = some cfg →
    mapLookup (buildResult cols user acc) c =
      if cfg.hidden = true then mapLookup acc c
      else
        match mapLookup user c with
        | some v => some v
        | none => mapLookup acc c := by
  intro cols
  induction cols with
  | nil =>
    intro user acc c cfg _ hc
    cases hc
  | cons p rest ih =>
    intro user acc c cfg hnd hc
    rcases p with ⟨name, cfg₀⟩
    simp only [List.map_cons, List.nodup_cons] at hnd
    by_cases hcn : name = c
    · subst hcn
      have hcfg : cfg₀ = cfg := by simpa [mapLookup] using hc
      subst hcfg
      have hrest : mapLookup rest name = none :=
        mapLookup_eq_none_of_not_mem rest name hnd.1
      unfold buildResult
      split
      next hhid => exact buildResult_lookup_of_none rest user acc name hrest
      next hhid =>
        split
        next v hv =>
          rw [buildResult_lookup_of_none rest user _ name hrest,
            mapLookup_insert, if_pos rfl]
        next hv => exact buildResult_lookup_of_none rest user acc name hrest
    · have hcrest : mapLookup rest c = some cfg := by
        simpa [mapLookup, hcn] using hc
      unfold buildResult
      split
      · exact ih user acc c cfg hnd.2 hcrest
      · split
        · rw [ih user _ c cfg hnd.2 hcrest, mapLookup_insert, if_neg (Ne.symm hcn)]
        · exact ih user acc c cfg hnd.2 hcrest

/-- The returned field map has distinct keys. -/
theorem buildResult_nodupKeys :
    ∀ (cols : StrMap ColumnConfig) (user acc : StrMap String),
    (acc.map Prod.fst).Nodup → (((buildResult cols user acc).map Prod.fst)).Nodup := by
  intro cols
  induction cols with
  | nil => intro user acc h; exact h
  | cons p rest ih =>
    intro user acc h
    rcases p with ⟨name, cfg⟩
    unfold buildResult
    split
    · exact ih user acc h
    · split
      · exact ih user _ (nodupKeys_insert acc name _ h)
      · exact ih user acc h

/-! ## Claim-builder lemma (`GenerateToken` loop) -/

/-- The claim map built by `GenerateToken`: the user fields (as strings) on
top of the base claims, user fields winning on key collisions. -/
theorem insertClaims_lookup :
    ∀ (fields : StrMap String) (base : Claims) (k : String),
    (fields.map Prod.fst).Nodup →
    mapLookup (insertClaims base fields) k =
      match mapLookup fields k with
      | some v => some (GoVal.str v)
      | none => mapLookup base k := by
  intro fields
  induction fields with
  | nil => intro base k _; rfl
  | cons p rest ih =>
    intro base k hnd
    rcases p with ⟨k₀, v₀⟩
    simp only [List.map_cons, List.nodup_cons] at hnd
    have hstep : insertClaims base ((k₀, v₀) :: rest) =
        insertClaims (mapInsert base k₀ (GoVal.str v₀)) rest := rfl
    rw [hstep, ih _ k hnd.2]
    by_cases hk : k₀ = k
    · subst hk
      have : mapLookup rest k₀ = none := mapLookup_eq_none_of_not_mem rest k₀ hnd.1
      simp [mapLookup, this, mapLookup_insert]
    · have hne : ¬ k = k₀ := fun hc => hk hc.symm
      have hrhs : mapLookup ((k₀, v₀) :: rest) k = mapLookup rest k := by
        simp [mapLookup, hk]
      rw [hrhs]
      cases hr : mapLookup rest k
      · rw [mapLookup_insert, if_neg hne]
      · rfl

/-! ## Shape of a successful in-memory `GetUserInfo` -/

/-- A successful `GetUserInfo` returns exactly the `buildResult` of the
stored record. -/
theorem getUserInfo_ok_shape (st : InMemoryUserStore) (username password : String)
    (ui : StrMap String) (h : st.GetUserInfo username password = .ok ui) :
    ∃ user, mapLookup st.users username = some user ∧
      ui = buildResult st.tableCfg.columns user [] := by
  unfold InMemoryUserStore.GetUserInfo at h
  cases hu : mapLookup st.users username with
  | none => rw [hu] at h; cases h
  | some user =>
    rw [hu] at h
    dsimp only at h
    cases hp : mapLookup user "password" with
    | none => rw [hp] at h; cases h
    | some hashed =>
      rw [hp] at h
      dsimp only at h
      split at h
      · cases h
        exact ⟨user, rfl, rfl⟩
      · cases h

/-! ## Claim C1 (corrected: holds for the in-memory variant only) -/

/-- C1 counterexample: the relational `GetUserInfo` returns the hidden
`password` column's (hashed) value, because the `cfg.Hidden` filter is
commented out in its source. -/
theorem C1_counterexample :
    exPasswordCol.hidden = true ∧
    mapLookup (runFields (exDB.GetUserInfo "alice" "secret1")) "password" =
      some "bcrypt-hash:secret1" := by decide

/-- C1 amended: for the in-memory store, a successful `GetUserInfo` returns
exactly the non-hidden schema columns present in the stored record — a
hidden column's value never appears — while the relational variant returns
every schema column, hidden ones included (see the counterexample). -/
theorem C1_getUserInfo_hidden_inMemory (st : InMemoryUserStore)
    (username password : String) (ui : StrMap String)
    (hnd : (st.tableCfg.columns.map Prod.fst).Nodup)
    (h : st.GetUserInfo username password = .ok ui) :
    ∃ user, mapLookup st.users username = some user ∧
      ∀ c,
        mapLookup ui c =
          match mapLookup st.tableCfg.columns c with
          | some cfg => if cfg.hidden = true then none else mapLookup user c
          | none => none := by
  obtain ⟨user, hu, hsh⟩ := getUserInfo_ok_shape st username password ui h
  refine ⟨user, hu, ?_⟩
  intro c
  subst hsh
  cases hcc : mapLookup st.tableCfg.columns c with
  | none => simpa [mapLookup] using buildResult_lookup_of_none _ user [] c hcc
  | some cfg =>
    rw [buildResult_lookup_of_some _ user [] c cfg hnd hcc]
    by_cases hh : cfg.hidden = true
    · simp [hh, mapLookup]
    · cases hval : mapLookup user c <;> simp [hh, mapLookup]

theorem C1_witness :
    mapLookup (resultFields (exStore.GetUserInfo "alice" "secret1")) "password" = none := by
  obtain ⟨user, hu, hchar⟩ :=
    C1_getUserInfo_hidden_inMemory exStore "alice" "secret1"
      (resultFields (exStore.GetUserInfo "alice" "secret1")) (by decide) (by decide)
  rw [hchar "password"]
  rfl

/-! ## Claim C2 (corrected: claims are keyed by column name, not jwt_claim) -/

/-- C2 counterexample: with a `role` column whose claim-name is
`customRole`, the generated token carries a `role` claim and no
`customRole` claim — the `jwt_claim` field is parsed but never used. -/
theorem C2_counterexample :
    exRoleColCustom.jwtClaim = "customRole" ∧
    mapLookup (resultToken (exMgr.GenerateToken exStoreCustom 0 "alice" "secret1")).claims
      "customRole" = none ∧
    mapLookup (resultToken (exMgr.GenerateToken exStoreCustom 0 "alice" "secret1")).claims
      "role" = some (GoVal.str "user") := by decide

/-- C2 amended: the access token carries exactly the issuer claim, the
expiry claim `now + lifetime`, and one claim per returned user field keyed
by the column name (user fields winning on key collisions); the schema's
claim-name plays no part. -/
theorem C2_generateToken_claim_keys (m : JWTManager) (st : InMemoryUserStore) (now : Int)
    (username password : String) (tok : Token) (ui : StrMap String)
    (hui : st.GetUserInfo username password = .ok ui)
    (htok : m.GenerateToken st now username password = .ok tok) :
    ∀ k, mapLookup tok.claims k =
      match mapLookup ui k with
      | some v => some (GoVal.str v)
      | none =>
        if k = "iss" then some (GoVal.str authifyIssuer)
        else if k = "exp" then some (GoVal.num (now + m.tokenDuration))
        else none := by
  have hnd : (ui.map Prod.fst).Nodup := by
    obtain ⟨user, _, hsh⟩ := getUserInfo_ok_shape st username password ui hui
    subst hsh
    exact buildResult_nodupKeys _ user [] (by simp)
  unfold JWTManager.GenerateToken at htok
  rw [hui] at htok
  dsimp only at htok
  cases htok
  intro k
  dsimp only
  rw [insertClaims_lookup ui _ k hnd]
  cases hk : mapLookup ui k with
  | some v => rfl
  | none =>
    by_cases hexp : k = "exp"
    · subst hexp
      rw [mapLookup_insert, if_pos rfl]
      simp
    · rw [mapLookup_insert, if_neg hexp, mapLookup_insert]
      by_cases hiss : k = "iss"
      · subst hiss
        simp
      · rw [if_neg hiss]
        simp [mapLookup, hiss, hexp]

theorem C2_witness :
    mapLookup (resultToken (exMgr.GenerateToken exStoreCustom 0 "alice" "secret1")).claims
      "exp" = some (GoVal.num 900) := by
  have hchar := C2_generateToken_claim_keys exMgr exStoreCustom 0 "alice" "secret1"
    (resultToken (exMgr.GenerateToken exStoreCustom 0 "alice" "secret1"))
    (resultFields (exStoreCustom.GetUserInfo "alice" "secret1")) (by decide) (by decide)
  rw [hchar "exp"]
  rfl

/-! ## Claim C10 -/

/-- C10: when the input field map has no `username` key, the in-memory
`CreateUser` fails with `ErrUserNotFound` — not a missing-field error — for
any configured schema, and the store is unchanged. -/
theorem C10_createUser_no_username (st : InMemoryUserStore) (data : StrMap String)
    (h : mapLookup data "username" = none) :
    st.CreateUser data = (.error .userNotFound, st) := by
  unfold InMemoryUserStore.CreateUser
  rw [h]

theorem C10_witness :
    mapLookup ([("password", "secret1")] : StrMap String) "username" = none ∧
    exEmptyStore.CreateUser [("password", "secret1")] = (.error .userNotFound, exEmptyStore) :=
  ⟨by decide, C10_createUser_no_username exEmptyStore [("password", "secret1")] (by decide)⟩

/-! ## Claim C8 -/

/-- C8: when the store already holds a record under the supplied username, a
second `CreateUser` with that username fails with `ErrUserExists` and leaves
the record table exactly unchanged. -/
theorem C8_createUser_duplicate (st : InMemoryUserStore) (data : StrMap String)
    (username : String) (rec : StrMap String)
    (hu : mapLookup data "username" = some username)
    (hexists : mapLookup st.users username = some rec) :
    st.CreateUser data = (.error .userExists, st) := by
  unfold InMemoryUserStore.CreateUser
  rw [hu]
  dsimp only
  rw [hexists]

theorem C8_witness :
    mapLookup exStore.users "alice" =
      some [("role", "user"), ("password", "bcrypt-hash:secret1"), ("username", "alice")] ∧
    exStore.CreateUser exData = (.error .userExists, exStore) :=
  ⟨by decide,
    C8_createUser_duplicate exStore exData "alice"
      [("role", "user"), ("password", "bcrypt-hash:secret1"), ("username", "alice")]
      (by decide) (by decide)⟩

/-! ## Claim C5 -/

/-- C5: when verification of the refresh token fails because its expiry has
elapsed, `RefreshToken` fails with the distinct `ErrRefreshTokenExpired`,
for every access token whatsoever. -/
theorem C5_refresh_expired_distinct (m : JWTManager) (now : Int)
    (accessToken refreshToken : Token)
    (h : m.VerifyToken now refreshToken true = .error .tokenExpired) :
    m.RefreshToken now accessToken refreshToken = .err .refreshTokenExpired := by
  unfold JWTManager.RefreshToken
  rw [h]
  rfl

theorem C5_witness :
    exMgr.VerifyToken 300000 exRefreshTok true = .error .tokenExpired ∧
    exMgr.RefreshToken 300000 exExpiredNoUserTok exRefreshTok = .err .refreshTokenExpired :=
  ⟨by decide,
    C5_refresh_expired_distinct exMgr 300000 exExpiredNoUserTok exRefreshTok (by decide)⟩

/-! ## Claim C4 (corrected) -/

/-- C4 counterexample: a token whose header declares RS256 — outside the HMAC
family — makes `VerifyToken` return `ErrInvalidToken`, not the
`ErrUnexpectedSigningMethod` the claim names. -/
theorem C4_counterexample :
    exMgr.VerifyToken 0 exRS256Tok false = .error .invalidToken ∧
    GoError.invalidToken ≠ GoError.unexpectedSigningMethod := by decide

/-- C4 amended: for every token whose header algorithm is outside the HMAC
family, `VerifyToken` fails with `ErrInvalidToken`, for both values of
`isRefresh`; the keyfunc's `ErrUnexpectedSigningMethod` is collapsed by the
error handling into `ErrInvalidToken`. -/
theorem C4_nonHMAC_invalid (m : JWTManager) (now : Int) (t : Token) (isRefresh : Bool)
    (h : t.alg.isHMAC = false) :
    m.VerifyToken now t isRefresh = .error .invalidToken := by
  unfold JWTManager.VerifyToken jwtParse
  rw [h]
  rfl

theorem C4_witness :
    Alg.isHMAC exRS256Tok.alg = false ∧
    exMgr.VerifyToken 0 exRS256Tok true = .error .invalidToken :=
  ⟨by decide, C4_nonHMAC_invalid exMgr 0 exRS256Tok true (by decide)⟩

/-! ## Claim C3 (code bug in the in-memory variant) -/

/-- C3: with a required `email` column with no default and input supplying
only username/password, the in-memory `CreateUser` returns the
`ErrInvalidPassword` sentinel instead of a missing-field error, while the
relational variant's column loop correctly produces the
`missing required field: email` error. -/
theorem C3_missing_required_field_sentinels :
    (exStoreEmail.CreateUser exData).1 = .error .invalidPassword ∧
    dbInsertRow exColumnsEmail exData [] = .error (.missingRequiredField "email") ∧
    GoError.invalidPassword ≠ GoError.missingRequiredField "email" := by decide

/-! ## Claim C7 (corrected) -/

/-- Closed form of `VerifyToken` on a correctly signed access-class token
with a numeric `exp` claim and no `nbf` claim. -/
theorem verifyToken_access_eval (m : JWTManager) (now e : Int) (t : Token)
    (halg : t.alg.isHMAC = true)
    (hkey : t.key = m.accessTokenSecretKey)
    (hexp : mapLookup t.claims "exp" = some (.num e))
    (hnbf : mapLookup t.claims "nbf" = none) :
    m.VerifyToken now t false =
      if now ≥ e then .error .tokenExpired
      else
        match mapLookup t.claims "username" with
        | some (.str u) =>
          match mapLookup t.claims "role" with
          | some (.str r) => .ok (u, r)
          | _ => .error .missingRole
        | _ => .error .missingUsername := by
  unfold JWTManager.VerifyToken jwtParse validateClaims validateExp validateNbf
  rw [halg, hkey, hexp, hnbf]
  by_cases hge : now ≥ e
  · rw [if_pos hge]
    simp [hge, errorsIsTokenExpired]
  · rw [if_neg hge]
    have hgt : ¬ now > e := by omega
    simp [hge, hexp, hgt]

/-- C7 counterexample: under a schema with no `role` column, a created user's
`GenerateToken` + `VerifyToken(_, false)` round trip fails with
`ErrMissingRole` instead of succeeding. -/
theorem C7_counterexample :
    (InMemoryUserStore.CreateUser ⟨[], ⟨"users", true, exColumnsNoRole⟩⟩ exData).1 = .ok () ∧
    exMgr.VerifyToken 10
      (resultToken (exMgr.GenerateToken exStoreNoRole 0 "alice" "secret1")) false =
      .error .missingRole := by decide

/-- C7 amended: the round trip holds for every created user provided the
schema has a non-hidden `username` column, a `password` column, and a
non-hidden `role` column whose value reaches the record (supplied or via a
nonempty default), and no schema column is named `exp` or `nbf`; then
verifying within the token lifetime returns the username and the record's
role. -/
theorem C7_roundtrip (m : JWTManager) (st st₁ : InMemoryUserStore) (data : StrMap String)
    (username password roleVal : String) (now now₁ : Int) (tok : Token)
    (ucfg pcfg rcfg : ColumnConfig)
    (hnd : (st.tableCfg.columns.map Prod.fst).Nodup)
    (hdu : mapLookup data "username" = some username)
    (hdp : mapLookup data "password" = some password)
    (hcu : mapLookup st.tableCfg.columns "username" = some ucfg)
    (hcuh : ucfg.hidden = false)
    (hcp : mapLookup st.tableCfg.columns "password" = some pcfg)
    (hcr : mapLookup st.tableCfg.columns "role" = some rcfg)
    (hcrh : rcfg.hidden = false)
    (hrole : mapLookup data "role" = some roleVal ∨
      (mapLookup data "role" = none ∧ rcfg.dflt = roleVal ∧ roleVal ≠ ""))
    (hcexp : mapLookup st.tableCfg.columns "exp" = none)
    (hcnbf : mapLookup st.tableCfg.columns "nbf" = none)
    (hcreate : st.CreateUser data = (.ok (), st₁))
    (htok : m.GenerateToken st₁ now username password = .ok tok)
    (hlife : now₁ < now + m.tokenDuration) :
    m.VerifyToken now₁ tok false = .ok (username, roleVal) := by
  unfold InMemoryUserStore.CreateUser at hcreate
  rw [hdu] at hcreate
  dsimp only at hcreate
  cases hex : mapLookup st.users username with
  | some rec =>
    rw [hex] at hcreate
    simp at hcreate
  | none =>
    rw [hex] at hcreate
    dsimp only at hcreate
    cases hrec : buildRecord st.tableCfg.columns data [] with
    | error e =>
      rw [hrec] at hcreate
      simp at hcreate
    | ok user =>
      rw [hrec] at hcreate
      dsimp only at hcreate
      have hst₁ := congrArg Prod.snd hcreate
      dsimp only at hst₁
      subst hst₁
      -- record contents
      have hrecU : mapLookup user "username" = some username := by
        rw [buildRecord_lookup_of_some st.tableCfg.columns data [] user "username" ucfg
          hnd hcu hrec, hdu]
        rfl
      have hrecP : mapLookup user "password" = some (bcryptGenerateFromPassword password) := by
        rw [buildRecord_lookup_of_some st.tableCfg.columns data [] user "password" pcfg
          hnd hcp hrec, hdp]
        rfl
      have hrecR : mapLookup user "role" = some roleVal := by
        rcases hrole with hr | ⟨hr, hd, hne⟩
        · rw [buildRecord_lookup_of_some st.tableCfg.columns data [] user "role" rcfg
            hnd hcr hrec, hr]
          rfl
        · rw [buildRecord_lookup_of_some st.tableCfg.columns data [] user "role" rcfg
            hnd hcr hrec, hr]
          dsimp only
          rw [hd, if_pos hne]
          rfl
      have hrecE : mapLookup user "exp" = none := by
        rw [buildRecord_lookup_of_none st.tableCfg.columns data [] user "exp" hcexp hrec]
        rfl
      have hrecN : mapLookup user "nbf" = none := by
        rw [buildRecord_lookup_of_none st.tableCfg.columns data [] user "nbf" hcnbf hrec]
        rfl
      -- authentication on the updated store
      have hcmp : bcryptCompareHashAndPassword (bcryptGenerateFromPassword password) password
          = true := by
        simp [bcryptCompareHashAndPassword]
      have hgui : InMemoryUserStore.GetUserInfo
          { st with users := mapInsert st.users username user } username password =
          .ok (buildResult st.tableCfg.columns user []) := by
        unfold InMemoryUserStore.GetUserInfo
        dsimp only
        rw [mapLookup_insert, if_pos rfl]
        dsimp only
        rw [hrecP]
        dsimp only
        rw [if_pos hcmp]
      unfold JWTManager.GenerateToken at htok
      rw [hgui] at htok
      dsimp only at htok
      cases htok
      -- returned user fields
      have huind : ((buildResult st.tableCfg.columns user []).map Prod.fst).Nodup :=
        buildResult_nodupKeys st.tableCfg.columns user [] (by simp)
      have huiU : mapLookup (buildResult st.tableCfg.columns user []) "username" =
          some username := by
        rw [buildResult_lookup_of_some st.tableCfg.columns user [] "username" ucfg hnd hcu,
          hcuh, if_neg (by decide), hrecU]
      have huiR : mapLookup (buildResult st.tableCfg.columns user []) "role" =
          some roleVal := by
        rw [buildResult_lookup_of_some st.tableCfg.columns user [] "role" rcfg hnd hcr,
          hcrh, if_neg (by decide), hrecR]
      have huiE : mapLookup (buildResult st.tableCfg.columns user []) "exp" = none := by
        rw [buildResult_lookup_of_none st.tableCfg.columns user [] "exp" hcexp]
        rfl
      have huiN : mapLookup (buildResult st.tableCfg.columns user []) "nbf" = none := by
        rw [buildResult_lookup_of_none st.tableCfg.columns user [] "nbf" hcnbf]
        rfl
      -- token claims
      have hcE : mapLookup (insertClaims
          (mapInsert (mapInsert [] "iss" (GoVal.str authifyIssuer))
            "exp" (GoVal.num (now + m.tokenDuration)))
          (buildResult st.tableCfg.columns user [])) "exp" =
          some (GoVal.num (now + m.tokenDuration)) := by
        rw [insertClaims_lookup _ _ "exp" huind, huiE]
        dsimp only
        rw [mapLookup_insert, if_pos rfl]
      have hcN : mapLookup (insertClaims
          (mapInsert (mapInsert [] "iss" (GoVal.str authifyIssuer))
            "exp" (GoVal.num (now + m.tokenDuration)))
          (buildResult st.tableCfg.columns user [])) "nbf" = none := by
        rw [insertClaims_lookup _ _ "nbf" huind, huiN]
        dsimp only
        rw [mapLookup_insert, if_neg (by decide), mapLookup_insert, if_neg (by decide)]
        rfl
      have hcU : mapLookup (insertClaims
          (mapInsert (mapInsert [] "iss" (GoVal.str authifyIssuer))
            "exp" (GoVal.num (now + m.tokenDuration)))
          (buildResult st.tableCfg.columns user [])) "username" =
          some (GoVal.str username) := by
        rw [insertClaims_lookup _ _ "username" huind, huiU]
      have hcR : mapLookup (insertClaims
          (mapInsert (mapInsert [] "iss" (GoVal.str authifyIssuer))
            "exp" (GoVal.num (now + m.tokenDuration)))
          (buildResult st.tableCfg.columns user [])) "role" =
          some (GoVal.str roleVal) := by
        rw [insertClaims_lookup _ _ "role" huind, huiR]
      -- final verification
      rw [verifyToken_access_eval m now₁ (now + m.tokenDuration)
        { alg := Alg.hs256, key := m.accessTokenSecretKey,
          claims := insertClaims
            (mapInsert (mapInsert [] "iss" (GoVal.str authifyIssuer))
              "exp" (GoVal.num (now + m.tokenDuration)))
            (buildResult st.tableCfg.columns user []) }
        rfl rfl hcE hcN]
      rw [if_neg (by omega)]
      dsimp only
      rw [hcU]
      dsimp only
      rw [hcR]

theorem C7_witness :
    exEmptyStore.CreateUser exData = (.ok (), exStore) ∧
    exMgr.VerifyToken 10
      (resultToken (exMgr.GenerateToken exStore 0 "alice" "secret1")) false =
      .ok ("alice", "user") :=
  ⟨by decide,
    C7_roundtrip exMgr exEmptyStore exStore exData "alice" "secret1" "user" 0 10
      (resultToken (exMgr.GenerateToken exStore 0 "alice" "secret1"))
      exUsernameCol exPasswordCol exRoleCol
      (by decide) (by decide) (by decide) (by decide) (by decide) (by decide) (by decide)
      (by decide) (Or.inr (by decide)) (by decide) (by decide) (by decide) (by decide)
      (by decide)⟩

/-! ## Claim C9 (corrected) -/

/-- C9 counterexample: a correctly signed access token that is expired but
carries no `username` claim drives `RefreshToken`'s recovery path into the
unchecked `claims["username"].(string)` type assertion, which panics. -/
theorem C9_counterexample :
    exMgr.RefreshToken 1000 exExpiredNoUserTok exRefreshTok = .panicked := by decide

/-- C9 amended: whenever the access token's claims do carry a string-typed
`username` claim — as every token issued by `GenerateToken` over a schema
with a non-hidden `username` column does — `RefreshToken` returns a result
and never panics. -/
theorem C9_no_panic_with_username_claim (m : JWTManager) (now : Int)
    (accessToken refreshToken : Token) (u : String)
    (h : mapLookup accessToken.claims "username" = some (.str u)) :
    m.RefreshToken now accessToken refreshToken ≠ .panicked := by
  unfold JWTManager.RefreshToken
  split
  · split <;> simp
  · split
    · simp
    · split
      · rw [h]
        simp
      · simp

/-! ## Claim C6 -/

/-- Closed form of `VerifyToken` on a correctly signed refresh-class token
with a numeric `exp` claim and no `nbf` claim. -/
theorem verifyToken_refresh_eval (m : JWTManager) (now e : Int) (t : Token)
    (halg : t.alg.isHMAC = true)
    (hkey : t.key = m.refreshTokenSecretKey)
    (hexp : mapLookup t.claims "exp" = some (.num e))
    (hnbf : mapLookup t.claims "nbf" = none) :
    m.VerifyToken now t true =
      if now ≥ e then .error .tokenExpired
      else
        match mapLookup t.claims "valid" with
        | some (.str v) =>
          if v ≠ "True" then .error .invalidToken
          else
            match mapLookup t.claims "uName" with
            | some (.str u) => .ok (u, "")
            | _ => .error .missingUsername
        | _ => .error .invalidToken := by
  unfold JWTManager.VerifyToken jwtParse validateClaims validateExp validateNbf
  rw [halg, hkey, hexp, hnbf]
  by_cases hge : now ≥ e
  · rw [if_pos hge]
    simp [hge, errorsIsTokenExpired]
  · rw [if_neg hge]
    have hgt : ¬ now > e := by omega
    simp [hge, hexp, hgt]

/-- C6: a refresh token correctly signed with the refresh secret, carrying a
numeric `exp` claim and no `nbf` claim, is accepted by `VerifyToken`
(`isRefresh=true`) exactly when its sliding expiry has not elapsed, its
`valid` flag equals `"True"`, and a string `uName` claim is present; and the
`aExp` claim has no influence on the outcome — it is never compared against
the current time. -/
theorem C6_verify_refresh_iff (m : JWTManager) (now e : Int) (t : Token)
    (halg : t.alg.isHMAC = true)
    (hkey : t.key = m.refreshTokenSecretKey)
    (hexp : mapLookup t.claims "exp" = some (.num e))
    (hnbf : mapLookup t.claims "nbf" = none) :
    ((∃ u, m.VerifyToken now t true = .ok (u, "")) ↔
      (now < e ∧ mapLookup t.claims "valid" = some (.str "True") ∧
        ∃ u, mapLookup t.claims "uName" = some (.str u))) ∧
    ∀ v, m.VerifyToken now { t with claims := mapInsert t.claims "aExp" v } true =
      m.VerifyToken now t true := by
  have heval := verifyToken_refresh_eval m now e t halg hkey hexp hnbf
  constructor
  · rw [heval]
    by_cases hge : now ≥ e
    · rw [if_pos hge]
      constructor
      · rintro ⟨u, hu⟩
        cases hu
      · rintro ⟨hlt, _, _⟩
        omega
    · rw [if_neg hge]
      have hlt : now < e := by omega
      cases hval : mapLookup t.claims "valid" with
      | none => simp
      | some v =>
        cases v with
        | num n => simp
        | str s =>
          by_cases hs : s = "True"
          · subst hs
            simp only [ne_eq, not_true_eq_false, if_false]
            cases hun : mapLookup t.claims "uName" with
            | none => simp
            | some w =>
              cases w with
              | num n => simp
              | str u => simp [hlt]
          · simp [hs]
  · intro v
    have hexp₁ : mapLookup (mapInsert t.claims "aExp" v) "exp" = some (GoVal.num e) := by
      rw [mapLookup_insert, if_neg (by decide), hexp]
    have hnbf₁ : mapLookup (mapInsert t.claims "aExp" v) "nbf" = none := by
      rw [mapLookup_insert, if_neg (by decide), hnbf]
    have heval₁ := verifyToken_refresh_eval m now e
      { t with claims := mapInsert t.claims "aExp" v } halg hkey hexp₁ hnbf₁
    rw [heval₁, heval]
    rw [show mapLookup (mapInsert t.claims "aExp" v) "valid" = mapLookup t.claims "valid" from
      by rw [mapLookup_insert, if_neg (by decide)]]
    rw [show mapLookup (mapInsert t.claims "aExp" v) "uName" = mapLookup t.claims "uName" from
      by rw [mapLookup_insert, if_neg (by decide)]]

theorem C6_witness :
    Alg.isHMAC exRefreshTok.alg = true ∧
    exMgr.VerifyToken 1000
      { exRefreshTok with claims := mapInsert exRefreshTok.claims "aExp" (GoVal.num 5) } true =
      exMgr.VerifyToken 1000 exRefreshTok true :=
  ⟨by decide,
    (C6_verify_refresh_iff exMgr 1000 259200 exRefreshTok
      (by decide) (by decide) (by decide) (by decide)).2 (GoVal.num 5)⟩

theorem C9_witness :
    mapLookup exExpiredAliceTok.claims "username" = some (GoVal.str "alice") ∧
    exMgr.RefreshToken 1000 exExpiredAliceTok exRefreshTok ≠ .panicked :=
  ⟨by decide,
    C9_no_panic_with_username_claim exMgr 1000 exExpiredAliceTok exRefreshTok "alice" (by decide)⟩

end Authify
